import Mathlib

/-!
Verification of the implementations code-lens feature
(`src/extensions/typescript-language-features/src/features/implementationsCodeLensProvider.ts`).

The file embeds the two pieces of core logic of that source file:

* `extractSymbol` — the symbol-eligibility classifier deciding whether a
  navigation-tree node gets an "implementations" lens and at which range;
* `resolveCodeLens` — the resolver turning the outcome of the single
  `implementation` query into the displayed command (label, action, targets).

External collaborators that the source file calls but does not define
(the base-class `getSymbolRange`, the client's `asUrl`, the coordinate
normalizer `typeConverters.Range.fromTextSpan`, and the message
substitution performed by `localize`) are modelled as stated in the
design document: injected total functions, or literal substitution.
-/

namespace ImplementationsCodeLens

/-- A 1-based (line, offset) position as sent by the external language
service (protocol `Location`). -/
structure ProtoLocation where
  line : Int
  offset : Int
deriving DecidableEq, Repr

/-- A span of text in protocol coordinates (protocol `TextSpan`):
`start` and `end` positions, both 1-based. -/
structure TextSpan where
  start : ProtoLocation
  «end» : ProtoLocation
deriving DecidableEq, Repr

/-- One raw hit of the `implementation` response body (protocol
`FileSpan`): a file identifier plus a text span. -/
structure FileSpan extends TextSpan where
  file : String
deriving DecidableEq, Repr

/-- A 0-based display position (editor `Position`). -/
structure Position where
  line : Int
  character : Int
deriving DecidableEq, Repr

/-- A display range (editor `Range`): start and end display positions. -/
structure Range where
  start : Position
  «end» : Position
deriving DecidableEq, Repr

/-- A display location (editor `Location`): a URI (kept as its string
form, which is what the self-exclusion filter compares) and a range. -/
structure Location where
  uri : String
  range : Range
deriving DecidableEq, Repr

/-- Modelled from the spec: the coordinate normalization applied to a
single-line hit ("1-based line/column as supplied by the external
service, normalized internally to a 0-based display coordinate").
This is `typeConverters.Range.fromTextSpan`, which lives outside the
supplied source file: subtract one from all four coordinates. -/
def Range.fromTextSpan (span : TextSpan) : Range :=
  { start := { line := span.start.line - 1, character := span.start.offset - 1 }
    «end» := { line := span.«end».line - 1, character := span.«end».offset - 1 } }

/-- The per-hit display range of `resolveCodeLens` (source lines 49–53):
a hit whose start and end are on the same line is normalized verbatim;
a multi-line hit is truncated to run from the 0-based start position to
the beginning of the next line. -/
def referenceRange (reference : FileSpan) : Range :=
  if reference.start.line = reference.«end».line then
    Range.fromTextSpan reference.toTextSpan
  else
    { start := { line := reference.start.line - 1, character := reference.start.offset - 1 }
      «end» := { line := reference.start.line, character := 0 } }

/-- The `vscode.Location` built for one raw hit (source lines 48–53):
the client's `asUrl` applied to the hit's file, plus `referenceRange`.
`asUrl` belongs to the excluded client collaborator and is injected. -/
def toLocation (asUrl : String → String) (reference : FileSpan) : Location :=
  { uri := asUrl reference.file, range := referenceRange reference }

/-- The self-exclusion predicate of the filter (source lines 55–58):
the location's URI string equals the lens document's URI string and the
location's range starts exactly at the lens range's start. -/
def isOriginal (document : String) (anchorStart : Position) (location : Location) : Bool :=
  location.uri == document
    && location.range.start.line == anchorStart.line
    && location.range.start.character == anchorStart.character

/-- The `locations` list of `resolveCodeLens` (source lines 45–58): map
each raw hit of the body to its display location, then drop the ones
equal to the lens's own (document, start position). -/
def computeLocations (asUrl : String → String) (document : String)
    (anchorStart : Position) (body : List FileSpan) : List Location :=
  (body.map (toLocation asUrl)).filter (fun location => !isOriginal document anchorStart location)

/-- The command stored on the resolved lens (`vscode.Command`): a title,
a command identifier (empty string = no-op), and optional arguments.
In the source the arguments triple is `[codeLens.document,
codeLens.range.start, locations]`. -/
structure Command where
  title : String
  command : String
  arguments : Option (String × Position × List Location)
deriving DecidableEq, Repr

/-- The possible outcomes of the single `client.execute('implementation', …)`
call as observed by the `then`/`catch` continuations: the promise was
rejected because the cancellation token fired, it was rejected with a
service/transport error, or it resolved with a response whose `body`
field is either absent (`none` — this also covers a falsy response
object, which the source checks with `!response || !response.body`) or
a present array of hits. -/
inductive ExecuteOutcome where
  | cancelled
  | error
  | ok (body : Option (List FileSpan))
deriving DecidableEq, Repr

/-- The resolver (source lines 37–75), as a function from the query
outcome to the command placed on the lens. The success branch builds
the label and jump action from `computeLocations`; every failure path —
rejection by cancellation, rejection by error, or the `throw` on a
missing body — reaches the `catch` and yields the generic failure
command. `localize` is modelled from the spec as literal substitution
of the count into "\x7b0\x7d implementations". The function is total:
the `catch` returns a command, so no outcome escapes as an exception. -/
def resolveCodeLens (asUrl : String → String) (document : String)
    (anchorStart : Position) (outcome : ExecuteOutcome) : Command :=
  match outcome with
  | .ok (some body) =>
    let locations := computeLocations asUrl document anchorStart body
    { title := if locations.length = 1 then "1 implementation"
               else Nat.repr locations.length ++ " implementations"
      command := if locations.length ≠ 0 then "editor.action.showReferences" else ""
      arguments := some (document, anchorStart, locations) }
  | _ =>
    { title := "Could not determine implementations"
      command := ""
      arguments := none }

/-- Modelled from the spec / `protocol.const`: the navigation-tree kind
strings the classifier switches on (`PConst.Kind`, not in the supplied
source). -/
def Kind.interfaceKind : String := "interface"

/-- Modelled from the spec / `protocol.const`: `PConst.Kind.class`. -/
def Kind.classKind : String := "class"

/-- Modelled from the spec / `protocol.const`: `PConst.Kind.memberFunction`. -/
def Kind.memberFunction : String := "method"

/-- Modelled from the spec / `protocol.const`: `PConst.Kind.memberVariable`. -/
def Kind.memberVariable : String := "property"

/-- Modelled from the spec / `protocol.const`: `PConst.Kind.memberGetAccessor`. -/
def Kind.memberGetAccessor : String := "getter"

/-- Modelled from the spec / `protocol.const`: `PConst.Kind.memberSetAccessor`. -/
def Kind.memberSetAccessor : String := "setter"

/-- The five kinds of the shared `case` group of `extractSymbol`
(source lines 86–90): eligible only when `kindModifiers` matches
the word-bounded regular expression. -/
def abstractCheckedKinds : List String :=
  [Kind.classKind, Kind.memberFunction, Kind.memberVariable,
   Kind.memberGetAccessor, Kind.memberSetAccessor]

/-- A word character in the sense of the regular expression engine's
word boundary `\b`: ASCII letter, digit, or underscore. -/
def isWordChar (c : Char) : Bool :=
  c.isAlpha || c.isDigit || c == '_'

/-- `isWordChar` lifted to an optional character; an absent character
(string edge) is not a word character. -/
def wordCharOpt : Option Char → Bool
  | none => false
  | some c => isWordChar c

/-- `listStartsWith tok l` holds when `tok` is an initial segment of `l`. -/
def listStartsWith : List Char → List Char → Bool
  | [], _ => true
  | _ :: _, [] => false
  | t :: ts, c :: cs => t == c && listStartsWith ts cs

/-- Scan for an occurrence of `tok` that is word-bounded on both sides,
carrying the previously consumed character to decide the left boundary.
This implements the test `kindModifiers.match(/\babstract\b/g)` of the
source (line 91) for a general token: an occurrence counts only when
the adjacent characters (when present) are not word characters. -/
def hasWordTokenAux (tok : List Char) : Option Char → List Char → Bool
  | _, [] => false
  | prev, c :: cs =>
    (listStartsWith tok (c :: cs) && !wordCharOpt prev
      && !wordCharOpt (((c :: cs).drop tok.length).head?))
    || hasWordTokenAux tok (some c) cs

/-- `kindModifiers.match(/\babstract\b/g)` is non-null: the modifiers
string contains "abstract" as a word-bounded token. -/
def kindModifiersHasAbstract (kindModifiers : String) : Bool :=
  hasWordTokenAux "abstract".data none kindModifiers.data

/-- A navigation-tree node (protocol `NavigationTree`), restricted to
the fields the classifier reads: the kind string and the modifiers
string. -/
structure NavigationTree where
  kind : String
  kindModifiers : String
deriving DecidableEq, Repr

/-- The classifier `extractSymbol` (source lines 77–97). The base-class
range resolution is, per the design document, an excluded collaborator
"modelled as an injected capability getSymbolRange(document, node) ->
Range"; it is passed in as the total function `getSymbolRange`. The
`parent` parameter is accepted and ignored, as in the source
(`_parent`). -/
def extractSymbol (getSymbolRange : String → NavigationTree → Range)
    (document : String) (item : NavigationTree)
    (_parent : Option NavigationTree) : Option Range :=
  if item.kind = Kind.interfaceKind then
    some (getSymbolRange document item)
  else if item.kind ∈ abstractCheckedKinds then
    if kindModifiersHasAbstract item.kindModifiers then
      some (getSymbolRange document item)
    else
      none
  else
    none

/-- The character immediately to the left of a scan position: the last
element of the consumed segment `pre`, or the carried `prev` character
when `pre` is empty. -/
def lastOr (prev : Option Char) : List Char → Option Char
  | [] => prev
  | c :: cs => lastOr (some c) cs

/-- Spec-side reading of "the modifiers string contains `tok` as a
standalone word-bounded token": the string splits as
`pre ++ tok ++ post` where the character just before the occurrence
(if any) and the character just after it (if any) are not word
characters. Stated independently of the scanning function so that the
scan can be proved equivalent to it. -/
def ContainsStandaloneToken (tok s : String) : Prop :=
  ∃ pre post : List Char,
    s.data = pre ++ tok.data ++ post ∧
    wordCharOpt (lastOr none pre) = false ∧
    wordCharOpt post.head? = false

theorem listStartsWith_iff (tok : List Char) :
    ∀ l, listStartsWith tok l = true ↔ ∃ post, l = tok ++ post := by
  induction tok with
  | nil =>
    intro l
    simp [listStartsWith]
  | cons t ts ih =>
    intro l
    cases l with
    | nil =>
      simp [listStartsWith]
    | cons c cs =>
      rw [show listStartsWith (t :: ts) (c :: cs) = (t == c && listStartsWith ts cs) from rfl,
        Bool.and_eq_true, beq_iff_eq, ih]
      constructor
      · rintro ⟨rfl, post, rfl⟩
        exact ⟨post, rfl⟩
      · rintro ⟨post, h⟩
        rw [List.cons_append, List.cons.injEq] at h
        exact ⟨h.1.symm, post, h.2⟩

theorem hasWordTokenAux_iff (tok : List Char) (htok : tok ≠ []) :
    ∀ (l : List Char) (prev : Option Char),
      hasWordTokenAux tok prev l = true ↔
        ∃ pre post, l = pre ++ tok ++ post ∧
          wordCharOpt (lastOr prev pre) = false ∧
          wordCharOpt post.head? = false := by
  intro l
  induction l with
  | nil =>
    intro prev
    constructor
    · intro h
      simp [hasWordTokenAux] at h
    · rintro ⟨pre, post, hl, -, -⟩
      rw [eq_comm] at hl
      exact absurd (List.append_eq_nil.mp (List.append_eq_nil.mp hl).1).2 htok
  | cons c cs ih =>
    intro prev
    rw [show hasWordTokenAux tok prev (c :: cs) =
        ((listStartsWith tok (c :: cs) && !wordCharOpt prev
          && !wordCharOpt (((c :: cs).drop tok.length).head?))
          || hasWordTokenAux tok (some c) cs) from rfl]
    rw [Bool.or_eq_true, Bool.and_eq_true, Bool.and_eq_true, ih (some c)]
    constructor
    · rintro (⟨⟨hstart, hprev⟩, hafter⟩ | ⟨pre, post, rfl, hlast, hhead⟩)
      · obtain ⟨post, hpost⟩ := (listStartsWith_iff tok (c :: cs)).mp hstart
        refine ⟨[], post, by simpa using hpost, by simpa [lastOr] using hprev, ?_⟩
        rw [hpost, List.drop_left] at hafter
        simpa using hafter
      · exact ⟨c :: pre, post, by simp, hlast, hhead⟩
    · rintro ⟨pre, post, hl, hlast, hhead⟩
      cases pre with
      | nil =>
        left
        simp only [List.nil_append] at hl
        refine ⟨⟨(listStartsWith_iff tok (c :: cs)).mpr ⟨post, hl⟩, ?_⟩, ?_⟩
        · simpa [lastOr] using hlast
        · rw [hl, List.drop_left]
          simpa using hhead
      | cons p pre' =>
        right
        rw [List.cons_append, List.cons_append, List.cons.injEq] at hl
        obtain ⟨rfl, hcs⟩ := hl
        exact ⟨pre', post, hcs, hlast, hhead⟩

/-- The source's regular-expression test agrees with the spec-side
standalone-token predicate. -/
theorem kindModifiersHasAbstract_iff (s : String) :
    kindModifiersHasAbstract s = true ↔ ContainsStandaloneToken "abstract" s :=
  hasWordTokenAux_iff "abstract".data (by decide) s.data none

/-- On the five modifier-checked kinds, `extractSymbol` reduces to the
test of the word-bounded regular expression. -/
theorem extractSymbol_abstract_kind (getSymbolRange : String → NavigationTree → Range)
    (document : String) (item : NavigationTree) (parent : Option NavigationTree)
    (hni : item.kind ≠ Kind.interfaceKind) (hk : item.kind ∈ abstractCheckedKinds) :
    extractSymbol getSymbolRange document item parent =
      if kindModifiersHasAbstract item.kindModifiers then
        some (getSymbolRange document item)
      else none := by
  unfold extractSymbol
  rw [if_neg hni, if_pos hk]

theorem mem_abstractCheckedKinds_ne_interface {k : String}
    (hk : k ∈ abstractCheckedKinds) : k ≠ Kind.interfaceKind := by
  simp only [abstractCheckedKinds, List.mem_cons, List.not_mem_nil, or_false] at hk
  rcases hk with h | h | h | h | h <;> rw [h] <;> decide

/-- C1 (counterexample): a successful response carrying a present but
empty body does not yield the generic failure result; it yields the
"0 implementations" label. In the source, `!response.body` is false for
an empty array (a truthy value), so the `throw` is not reached. -/
theorem claim1_empty_body_counterexample :
    (resolveCodeLens id "file.ts" ⟨0, 0⟩ (.ok (some []))).title = "0 implementations" ∧
    (resolveCodeLens id "file.ts" ⟨0, 0⟩ (.ok (some []))).title ≠
      "Could not determine implementations" := by
  constructor
  · rfl
  · decide

/-- C1 (amended): only an absent result body is treated as a failure
(`NoData`, generic failure result); a present but empty body is treated
as zero implementations, producing the "0 implementations" label with a
no-op (empty) command. -/
theorem claim1_amended_absent_vs_empty_body (asUrl : String → String)
    (document : String) (anchorStart : Position) :
    resolveCodeLens asUrl document anchorStart (.ok none) =
      { title := "Could not determine implementations", command := "", arguments := none } ∧
    (resolveCodeLens asUrl document anchorStart (.ok (some []))).title = "0 implementations" ∧
    (resolveCodeLens asUrl document anchorStart (.ok (some []))).command = "" := by
  refine ⟨rfl, ?_, rfl⟩
  show Nat.repr 0 ++ " implementations" = "0 implementations"
  decide

/-- C2: for a node of kind Class, MemberFunction, MemberVariable,
MemberGetAccessor or MemberSetAccessor, `extractSymbol` returns an
anchor range iff the modifiers string contains "abstract" as a
standalone word-bounded token (so neither "abstractfoo" nor
"fooabstract" counts), and returns `none` otherwise. -/
theorem claim2_abstract_word_boundary (getSymbolRange : String → NavigationTree → Range)
    (document : String) (item : NavigationTree) (parent : Option NavigationTree)
    (hkind : item.kind ∈ abstractCheckedKinds) :
    (extractSymbol getSymbolRange document item parent).isSome = true ↔
      ContainsStandaloneToken "abstract" item.kindModifiers := by
  rw [extractSymbol_abstract_kind getSymbolRange document item parent
    (mem_abstractCheckedKinds_ne_interface hkind) hkind, ← kindModifiersHasAbstract_iff]
  cases h : kindModifiersHasAbstract item.kindModifiers <;> simp [h]

theorem claim2_abstract_word_boundary_witness :
    ("class" ∈ abstractCheckedKinds) ∧
    (extractSymbol (fun _ _ => ⟨⟨0, 0⟩, ⟨0, 1⟩⟩) "doc.ts"
      { kind := "class", kindModifiers := "abstract" } none).isSome = true :=
  ⟨by decide,
    (claim2_abstract_word_boundary (fun _ _ => ⟨⟨0, 0⟩, ⟨0, 1⟩⟩) "doc.ts"
      { kind := "class", kindModifiers := "abstract" } none (by decide)).mpr
      ⟨[], [], by decide, rfl, rfl⟩⟩

/-- C3: the display range of a raw hit is the hit's own range with all
four coordinates shifted from 1-based to 0-based when start and end are
on the same line, and otherwise runs from (start.line - 1,
start.column - 1) to (start.line, 0). -/
theorem claim3_display_range (asUrl : String → String) (hit : FileSpan) :
    (hit.start.line = hit.«end».line →
      (toLocation asUrl hit).range =
        { start := { line := hit.start.line - 1, character := hit.start.offset - 1 }
          «end» := { line := hit.«end».line - 1, character := hit.«end».offset - 1 } }) ∧
    (hit.start.line ≠ hit.«end».line →
      (toLocation asUrl hit).range =
        { start := { line := hit.start.line - 1, character := hit.start.offset - 1 }
          «end» := { line := hit.start.line, character := 0 } }) := by
  constructor
  · intro h
    simp [toLocation, referenceRange, Range.fromTextSpan, h]
  · intro h
    simp [toLocation, referenceRange, h]

theorem claim3_display_range_witness :
    ((5 : Int) ≠ 8) ∧
    (toLocation id { toTextSpan := ⟨⟨5, 3⟩, ⟨8, 1⟩⟩, file := "f.ts" }).range =
      { start := { line := 4, character := 2 }, «end» := { line := 5, character := 0 } } :=
  ⟨by decide,
    ((claim3_display_range id { toTextSpan := ⟨⟨5, 3⟩, ⟨8, 1⟩⟩, file := "f.ts" }).2
      (by decide)).trans (by decide)⟩

/-- Membership characterization of `isOriginal`. -/
theorem isOriginal_eq_true_iff (document : String) (anchorStart : Position)
    (location : Location) :
    isOriginal document anchorStart location = true ↔
      (location.uri = document ∧ location.range.start.line = anchorStart.line ∧
        location.range.start.character = anchorStart.character) := by
  simp [isOriginal, and_assoc]

/-- C4: a hit whose display location coincides with the lens's own
(document, start line, start column) is absent from the jump-target
list, and this self-exclusion is the only removal rule: every other
hit's location is kept. -/
theorem claim4_self_exclusion (asUrl : String → String) (document : String)
    (anchorStart : Position) (body : List FileSpan) :
    (∀ location ∈ computeLocations asUrl document anchorStart body,
      ¬(location.uri = document ∧ location.range.start.line = anchorStart.line ∧
        location.range.start.character = anchorStart.character)) ∧
    (∀ hit ∈ body,
      ¬((toLocation asUrl hit).uri = document ∧
        (toLocation asUrl hit).range.start.line = anchorStart.line ∧
        (toLocation asUrl hit).range.start.character = anchorStart.character) →
      toLocation asUrl hit ∈ computeLocations asUrl document anchorStart body) := by
  constructor
  · intro location hmem hcontra
    rw [computeLocations, List.mem_filter] at hmem
    have h2 := hmem.2
    rw [(isOriginal_eq_true_iff document anchorStart location).mpr hcontra] at h2
    exact absurd h2 (by decide)
  · intro hit hmem hne
    rw [computeLocations, List.mem_filter]
    refine ⟨List.mem_map_of_mem _ hmem, ?_⟩
    cases h : isOriginal document anchorStart (toLocation asUrl hit)
    · rfl
    · exact absurd ((isOriginal_eq_true_iff _ _ _).mp h) hne

theorem claim4_self_exclusion_witness :
    (toLocation id ⟨⟨⟨9, 1⟩, ⟨9, 5⟩⟩, "d"⟩ ∈
      computeLocations id "d" ⟨4, 2⟩ [⟨⟨⟨5, 3⟩, ⟨8, 1⟩⟩, "d"⟩, ⟨⟨⟨9, 1⟩, ⟨9, 5⟩⟩, "d"⟩]) ∧
    (toLocation id ⟨⟨⟨5, 3⟩, ⟨8, 1⟩⟩, "d"⟩ ∉
      computeLocations id "d" ⟨4, 2⟩ [⟨⟨⟨5, 3⟩, ⟨8, 1⟩⟩, "d"⟩, ⟨⟨⟨9, 1⟩, ⟨9, 5⟩⟩, "d"⟩]) := by
  constructor
  · exact (claim4_self_exclusion id "d" ⟨4, 2⟩
      [⟨⟨⟨5, 3⟩, ⟨8, 1⟩⟩, "d"⟩, ⟨⟨⟨9, 1⟩, ⟨9, 5⟩⟩, "d"⟩]).2
      ⟨⟨⟨9, 1⟩, ⟨9, 5⟩⟩, "d"⟩ (by decide) (by decide)
  · intro hmem
    exact (claim4_self_exclusion id "d" ⟨4, 2⟩
      [⟨⟨⟨5, 3⟩, ⟨8, 1⟩⟩, "d"⟩, ⟨⟨⟨9, 1⟩, ⟨9, 5⟩⟩, "d"⟩]).1
      (toLocation id ⟨⟨⟨5, 3⟩, ⟨8, 1⟩⟩, "d"⟩) hmem (by decide)

/-- C5: on a successfully reduced jump-target list with N remaining
targets, the resolved command's label is "1 implementation" when N = 1
and the substituted "N implementations" otherwise (including N = 0);
the command is the show-references action carrying (document URI,
anchor start, targets) when N ≥ 1 and the empty (no-op) command when
N = 0. -/
theorem claim5_label_and_action (asUrl : String → String) (document : String)
    (anchorStart : Position) (body : List FileSpan) :
    ((computeLocations asUrl document anchorStart body).length = 1 →
      (resolveCodeLens asUrl document anchorStart (.ok (some body))).title =
        "1 implementation") ∧
    ((computeLocations asUrl document anchorStart body).length ≠ 1 →
      (resolveCodeLens asUrl document anchorStart (.ok (some body))).title =
        Nat.repr (computeLocations asUrl document anchorStart body).length
          ++ " implementations") ∧
    (1 ≤ (computeLocations asUrl document anchorStart body).length →
      (resolveCodeLens asUrl document anchorStart (.ok (some body))).command =
        "editor.action.showReferences" ∧
      (resolveCodeLens asUrl document anchorStart (.ok (some body))).arguments =
        some (document, anchorStart, computeLocations asUrl document anchorStart body)) ∧
    ((computeLocations asUrl document anchorStart body).length = 0 →
      (resolveCodeLens asUrl document anchorStart (.ok (some body))).command = "") := by
  refine ⟨?_, ?_, ?_, ?_⟩
  · intro h
    simp [resolveCodeLens, h]
  · intro h
    simp [resolveCodeLens, h]
  · intro h
    have h0 : (computeLocations asUrl document anchorStart body).length ≠ 0 :=
      Nat.one_le_iff_ne_zero.mp h
    exact ⟨by simp [resolveCodeLens, h0], by simp [resolveCodeLens]⟩
  · intro h
    simp [resolveCodeLens, h]

theorem claim5_label_and_action_witness :
    ((computeLocations id "d" ⟨0, 0⟩ [⟨⟨⟨9, 1⟩, ⟨9, 5⟩⟩, "d"⟩]).length = 1) ∧
    (resolveCodeLens id "d" ⟨0, 0⟩ (.ok (some [⟨⟨⟨9, 1⟩, ⟨9, 5⟩⟩, "d"⟩]))).title =
      "1 implementation" :=
  ⟨by decide, (claim5_label_and_action id "d" ⟨0, 0⟩ [⟨⟨⟨9, 1⟩, ⟨9, 5⟩⟩, "d"⟩]).1 (by decide)⟩

/-- C6: each failing outcome of the query — cancellation, error, and a
missing body — yields the same resolved command: label "Could not
determine implementations" with an empty (no-op) command and no
arguments. `resolveCodeLens` is a total function into `Command`, so no
failure kind escapes to the driver as an exception. -/
theorem claim6_failures_uniform (asUrl : String → String) (document : String)
    (anchorStart : Position) :
    resolveCodeLens asUrl document anchorStart .cancelled =
      { title := "Could not determine implementations", command := "", arguments := none } ∧
    resolveCodeLens asUrl document anchorStart .error =
      { title := "Could not determine implementations", command := "", arguments := none } ∧
    resolveCodeLens asUrl document anchorStart (.ok none) =
      { title := "Could not determine implementations", command := "", arguments := none } :=
  ⟨rfl, rfl, rfl⟩

/-- C7: a node of kind Interface always gets an anchor range, whatever
its modifiers; a node whose kind is neither Interface nor one of the
five modifier-checked kinds never does. -/
theorem claim7_interface_and_other_kinds (getSymbolRange : String → NavigationTree → Range)
    (document : String) (item : NavigationTree) (parent : Option NavigationTree) :
    (item.kind = Kind.interfaceKind →
      extractSymbol getSymbolRange document item parent =
        some (getSymbolRange document item)) ∧
    (item.kind ≠ Kind.interfaceKind → item.kind ∉ abstractCheckedKinds →
      extractSymbol getSymbolRange document item parent = none) := by
  constructor
  · intro h
    unfold extractSymbol
    rw [if_pos h]
  · intro h1 h2
    unfold extractSymbol
    rw [if_neg h1, if_neg h2]

theorem claim7_interface_and_other_kinds_witness :
    extractSymbol (fun _ _ => ⟨⟨0, 0⟩, ⟨0, 1⟩⟩) "d"
      { kind := "interface", kindModifiers := "" } none = some ⟨⟨0, 0⟩, ⟨0, 1⟩⟩ ∧
    extractSymbol (fun _ _ => ⟨⟨0, 0⟩, ⟨0, 1⟩⟩) "d"
      { kind := "function", kindModifiers := "abstract" } none = none :=
  ⟨(claim7_interface_and_other_kinds (fun _ _ => ⟨⟨0, 0⟩, ⟨0, 1⟩⟩) "d"
      { kind := "interface", kindModifiers := "" } none).1 rfl,
   (claim7_interface_and_other_kinds (fun _ _ => ⟨⟨0, 0⟩, ⟨0, 1⟩⟩) "d"
      { kind := "function", kindModifiers := "abstract" } none).2 (by decide) (by decide)⟩

/-- C8 (counterexample): the jump-target list is not deduplicated: a
response body repeating the same hit twice (a hit that is not
self-excluded) produces a jump-target list with two equal entries. -/
theorem claim8_dedup_counterexample :
    computeLocations id "d" ⟨0, 0⟩ [⟨⟨⟨9, 1⟩, ⟨9, 5⟩⟩, "d"⟩, ⟨⟨⟨9, 1⟩, ⟨9, 5⟩⟩, "d"⟩] =
      [{ uri := "d", range := ⟨⟨8, 0⟩, ⟨8, 4⟩⟩ }, { uri := "d", range := ⟨⟨8, 0⟩, ⟨8, 4⟩⟩ }] ∧
    ¬(computeLocations id "d" ⟨0, 0⟩
        [⟨⟨⟨9, 1⟩, ⟨9, 5⟩⟩, "d"⟩, ⟨⟨⟨9, 1⟩, ⟨9, 5⟩⟩, "d"⟩]).Nodup := by
  constructor
  · rfl
  · decide

/-- C8 (amended): the reduction applies no deduplication: duplicate
hits in the raw answer yield duplicate jump targets; the only removal
rule is the self-exclusion filter. -/
theorem claim8_no_dedup (asUrl : String → String) (document : String)
    (anchorStart : Position) (hit : FileSpan)
    (h : isOriginal document anchorStart (toLocation asUrl hit) = false) :
    computeLocations asUrl document anchorStart [hit, hit] =
      [toLocation asUrl hit, toLocation asUrl hit] := by
  simp [computeLocations, List.filter_cons, h]

theorem claim8_no_dedup_witness :
    (isOriginal "d" ⟨0, 0⟩ (toLocation id ⟨⟨⟨9, 1⟩, ⟨9, 5⟩⟩, "d"⟩) = false) ∧
    computeLocations id "d" ⟨0, 0⟩ [⟨⟨⟨9, 1⟩, ⟨9, 5⟩⟩, "d"⟩, ⟨⟨⟨9, 1⟩, ⟨9, 5⟩⟩, "d"⟩] =
      [toLocation id ⟨⟨⟨9, 1⟩, ⟨9, 5⟩⟩, "d"⟩, toLocation id ⟨⟨⟨9, 1⟩, ⟨9, 5⟩⟩, "d"⟩] :=
  ⟨by decide, claim8_no_dedup id "d" ⟨0, 0⟩ ⟨⟨⟨9, 1⟩, ⟨9, 5⟩⟩, "d"⟩ (by decide)⟩

/-- C9: the classification result is independent of the parent node:
`extractSymbol` ignores its parent argument. -/
theorem claim9_parent_independent (getSymbolRange : String → NavigationTree → Range)
    (document : String) (item : NavigationTree)
    (parent1 parent2 : Option NavigationTree) :
    extractSymbol getSymbolRange document item parent1 =
      extractSymbol getSymbolRange document item parent2 := rfl

/-- C10: the jump-target list preserves the order of the service
response: it is an order-preserving subsequence of the per-hit mapped
locations of the body. -/
theorem claim10_order_preserved (asUrl : String → String) (document : String)
    (anchorStart : Position) (body : List FileSpan) :
    List.Sublist (computeLocations asUrl document anchorStart body)
      (body.map (toLocation asUrl)) :=
  List.filter_sublist _

end ImplementationsCodeLens
